import Mathlib

/-!
Verification of the grade computation and calendar scheduling subsystem of the
college professor class management system.  The definitions below are shallow
embeddings of the JavaScript source: mongoose schema hooks and virtuals become
pure Lean functions, route handlers become functions over explicit state,
JavaScript numbers are modelled as exact rationals, and dates as milliseconds
since the epoch.
-/

namespace CPMS

/-- JavaScript Math.round: rounds half toward positive infinity. -/
def jsRound (q : ℚ) : ℤ := ⌊q + 1/2⌋

/-- The idiom Math.round(x * 100) / 100 from the source: round to two decimals. -/
def round2 (q : ℚ) : ℚ := (jsRound (q * 100) : ℚ) / 100

/-- Truthiness of an optional numeric field: undefined and 0 are falsy in JS. -/
def qFalsy : Option ℚ → Bool
  | none => true
  | some q => decide (q = 0)

/-- Truthiness of an optional string field: undefined and the empty string are falsy. -/
def sFalsy : Option String → Bool
  | none => true
  | some s => decide (s = "")

/-! ## Grade model (gradeSchema) -/

/-- The embedded assignment descriptor of gradeSchema. -/
structure Assignment where
  name : String
  type : String
  dueDate : Option ℤ := none
  maxPoints : ℚ
  weight : ℚ := 1
deriving DecidableEq

/-- The embedded score of gradeSchema; percentage and letterGrade are optional. -/
structure Score where
  points : ℚ
  percentage : Option ℚ := none
  letterGrade : Option String := none
deriving DecidableEq

/-- The embedded submissionInfo of gradeSchema. -/
structure SubmissionInfo where
  submittedAt : Option ℤ := none
  isLate : Bool := false
  latePenalty : ℚ := 0
deriving DecidableEq

/-- A grade document.  Students, classes and professors are identified by
numeric ids standing for ObjectIds. -/
structure Grade where
  student : ℕ
  «class» : ℕ
  professor : ℕ
  assignment : Assignment
  score : Score
  submissionInfo : SubmissionInfo := {}
  isExcused : Bool := false
  isExtra : Bool := false
deriving DecidableEq

/-- The virtual calculatedPercentage: 0 when maxPoints is 0, otherwise
Math.round((points / maxPoints) * 100 * 100) / 100. -/
def Grade.calculatedPercentage (g : Grade) : ℚ :=
  if g.assignment.maxPoints = 0 then 0
  else round2 (g.score.points / g.assignment.maxPoints * 100)

/-- The letter grade threshold chain of the virtual calculatedLetterGrade. -/
def letterOf (percentage : ℚ) : String :=
  if 97 ≤ percentage then "A+"
  else if 93 ≤ percentage then "A"
  else if 90 ≤ percentage then "A-"
  else if 87 ≤ percentage then "B+"
  else if 83 ≤ percentage then "B"
  else if 80 ≤ percentage then "B-"
  else if 77 ≤ percentage then "C+"
  else if 73 ≤ percentage then "C"
  else if 70 ≤ percentage then "C-"
  else if 67 ≤ percentage then "D+"
  else if 63 ≤ percentage then "D"
  else if 60 ≤ percentage then "D-"
  else "F"

/-- The virtual calculatedLetterGrade: thresholds applied to calculatedPercentage. -/
def Grade.calculatedLetterGrade (g : Grade) : String :=
  letterOf g.calculatedPercentage

/-- First block of the pre-save middleware: calculate percentage if not
provided and maxPoints is positive. -/
def Grade.derivePercentage (g : Grade) : Grade :=
  if qFalsy g.score.percentage && decide (0 < g.assignment.maxPoints) then
    { g with score := { g.score with percentage := some g.calculatedPercentage } }
  else g

/-- Second block of the pre-save middleware: calculate letter grade if not provided. -/
def Grade.deriveLetter (g : Grade) : Grade :=
  if sFalsy g.score.letterGrade then
    { g with score := { g.score with letterGrade := some g.calculatedLetterGrade } }
  else g

/-- Third block of the pre-save middleware: check whether the submission is late. -/
def Grade.deriveLateness (g : Grade) : Grade :=
  match g.assignment.dueDate, g.submissionInfo.submittedAt with
  | some due, some sub =>
      { g with submissionInfo := { g.submissionInfo with isLate := decide (due < sub) } }
  | _, _ => g

/-- The pre-save middleware of gradeSchema, in source order: derive percentage
when absent (and maxPoints is positive), derive letter grade when absent, and
recompute the late flag when both dueDate and submittedAt are present. -/
def Grade.preSave (g : Grade) : Grade :=
  g.derivePercentage.deriveLetter.deriveLateness

@[simp] lemma derivePercentage_letterGrade (g : Grade) :
    g.derivePercentage.score.letterGrade = g.score.letterGrade := by
  unfold Grade.derivePercentage; split <;> rfl

@[simp] lemma derivePercentage_points (g : Grade) :
    g.derivePercentage.score.points = g.score.points := by
  unfold Grade.derivePercentage; split <;> rfl

@[simp] lemma derivePercentage_assignment (g : Grade) :
    g.derivePercentage.assignment = g.assignment := by
  unfold Grade.derivePercentage; split <;> rfl

@[simp] lemma derivePercentage_calculatedPercentage (g : Grade) :
    g.derivePercentage.calculatedPercentage = g.calculatedPercentage := by
  unfold Grade.calculatedPercentage; simp

@[simp] lemma deriveLetter_percentage (g : Grade) :
    g.deriveLetter.score.percentage = g.score.percentage := by
  unfold Grade.deriveLetter; split <;> rfl

@[simp] lemma deriveLateness_score (g : Grade) :
    g.deriveLateness.score = g.score := by
  unfold Grade.deriveLateness
  rcases g.assignment.dueDate with _ | d <;> rcases g.submissionInfo.submittedAt with _ | s <;> rfl

lemma preSave_percentage (g : Grade) :
    g.preSave.score.percentage = g.derivePercentage.score.percentage := by
  unfold Grade.preSave; simp

/-- A grade with maxPoints 0 and no supplied percentage. -/
def gradeZeroMax : Grade :=
  { student := 1, «class» := 1, professor := 1,
    assignment := { name := "HW1", type := "homework", maxPoints := 0 },
    score := { points := 5 } }

/-- A grade worth 47 of 50 points with no supplied percentage. -/
def gradeRegular : Grade :=
  { student := 1, «class» := 1, professor := 1,
    assignment := { name := "HW2", type := "homework", maxPoints := 50 },
    score := { points := 47 } }

/-- C1 counterexample: with maxPoints = 0 and no percentage supplied, the
pre-save hook leaves the stored percentage unset rather than storing 0. -/
theorem grade_percentage_zero_max_counterexample :
    gradeZeroMax.score.percentage = none ∧
    gradeZeroMax.assignment.maxPoints = 0 ∧
    (0:ℚ) ≤ gradeZeroMax.score.points ∧
    (Grade.preSave gradeZeroMax).score.percentage ≠ some 0 := by
  refine ⟨rfl, rfl, by norm_num [gradeZeroMax], ?_⟩
  decide

/-- C1 amended: for a grade saved with points p ≥ 0, no supplied percentage and
maxPoints m, the stored percentage is round(p/m*100, 2) when m > 0, and is left
unset (not 0) when m = 0; the virtual calculatedPercentage is 0 when m = 0, so
no division by zero occurs. -/
theorem grade_percentage_derivation (g : Grade) (h : g.score.percentage = none) :
    (0 < g.assignment.maxPoints →
      g.preSave.score.percentage =
        some (round2 (g.score.points / g.assignment.maxPoints * 100))) ∧
    (g.assignment.maxPoints = 0 →
      g.preSave.score.percentage = none ∧ g.calculatedPercentage = 0) := by
  constructor
  · intro hm
    rw [preSave_percentage]
    unfold Grade.derivePercentage
    simp [h, qFalsy, hm, Grade.calculatedPercentage, ne_of_gt hm]
  · intro hm
    rw [preSave_percentage]
    unfold Grade.derivePercentage
    simp [h, qFalsy, hm, Grade.calculatedPercentage]

/-- C1 witness: the amended theorem applied to concrete grades; 47 of 50
points stores percentage 94, and maxPoints 0 leaves it unset. -/
theorem grade_percentage_derivation_witness :
    (Grade.preSave gradeRegular).score.percentage = some 94 ∧
    (Grade.preSave gradeZeroMax).score.percentage = none := by
  constructor
  · have h := (grade_percentage_derivation gradeRegular rfl).1 (by norm_num [gradeRegular])
    rw [h]
    norm_num [gradeRegular, round2, jsRound]
  · exact ((grade_percentage_derivation gradeZeroMax rfl).2 rfl).1

/-- A grade worth 97 of 100 points with no supplied letter grade. -/
def gradeLetterW : Grade :=
  { student := 2, «class» := 1, professor := 1,
    assignment := { name := "Final", type := "final", maxPoints := 100 },
    score := { points := 97 } }

set_option maxHeartbeats 1000000 in
/-- C2: for a grade saved with no supplied letter grade, the stored letter
grade is the threshold table applied to the derived percentage
(calculatedPercentage), with the exact ten-band boundaries; percentage 97
yields A+ and 96.99 yields A. -/
theorem grade_letter_derivation (g : Grade) (h : g.score.letterGrade = none) :
    g.preSave.score.letterGrade = some (letterOf g.calculatedPercentage) ∧
    (∀ q : ℚ,
      (97 ≤ q → letterOf q = "A+") ∧
      (93 ≤ q → q < 97 → letterOf q = "A") ∧
      (90 ≤ q → q < 93 → letterOf q = "A-") ∧
      (87 ≤ q → q < 90 → letterOf q = "B+") ∧
      (83 ≤ q → q < 87 → letterOf q = "B") ∧
      (80 ≤ q → q < 83 → letterOf q = "B-") ∧
      (77 ≤ q → q < 80 → letterOf q = "C+") ∧
      (73 ≤ q → q < 77 → letterOf q = "C") ∧
      (70 ≤ q → q < 73 → letterOf q = "C-") ∧
      (67 ≤ q → q < 70 → letterOf q = "D+") ∧
      (63 ≤ q → q < 67 → letterOf q = "D") ∧
      (60 ≤ q → q < 63 → letterOf q = "D-") ∧
      (q < 60 → letterOf q = "F")) ∧
    letterOf 97 = "A+" ∧ letterOf (9699/100) = "A" := by
  refine ⟨?_, ?_, by norm_num [letterOf], by norm_num [letterOf]⟩
  · have h1 : g.derivePercentage.score.letterGrade = none := by
      rw [derivePercentage_letterGrade, h]
    show (g.derivePercentage.deriveLetter.deriveLateness).score.letterGrade = _
    rw [deriveLateness_score]
    unfold Grade.deriveLetter
    rw [h1]
    simp only [sFalsy]
    simp only [if_true]
    simp only [Grade.calculatedLetterGrade, derivePercentage_calculatedPercentage]
  · intro q
    unfold letterOf
    have nle : ∀ a b : ℚ, b < a → ¬ a ≤ b := fun a b hb => not_le.mpr hb
    refine ⟨?_, ?_, ?_, ?_, ?_, ?_, ?_, ?_, ?_, ?_, ?_, ?_, ?_⟩
    · intro h1; rw [if_pos h1]
    · intro h1 h2; rw [if_neg (nle _ _ h2), if_pos h1]
    · intro h1 h2
      rw [if_neg (nle _ _ (by linarith)), if_neg (nle _ _ h2), if_pos h1]
    · intro h1 h2
      rw [if_neg (nle _ _ (by linarith)), if_neg (nle _ _ (by linarith)),
        if_neg (nle _ _ h2), if_pos h1]
    · intro h1 h2
      rw [if_neg (nle _ _ (by linarith)), if_neg (nle _ _ (by linarith)),
        if_neg (nle _ _ (by linarith)), if_neg (nle _ _ h2), if_pos h1]
    · intro h1 h2
      rw [if_neg (nle _ _ (by linarith)), if_neg (nle _ _ (by linarith)),
        if_neg (nle _ _ (by linarith)), if_neg (nle _ _ (by linarith)),
        if_neg (nle _ _ h2), if_pos h1]
    · intro h1 h2
      rw [if_neg (nle _ _ (by linarith)), if_neg (nle _ _ (by linarith)),
        if_neg (nle _ _ (by linarith)), if_neg (nle _ _ (by linarith)),
        if_neg (nle _ _ (by linarith)), if_neg (nle _ _ h2), if_pos h1]
    · intro h1 h2
      rw [if_neg (nle _ _ (by linarith)), if_neg (nle _ _ (by linarith)),
        if_neg (nle _ _ (by linarith)), if_neg (nle _ _ (by linarith)),
        if_neg (nle _ _ (by linarith)), if_neg (nle _ _ (by linarith)),
        if_neg (nle _ _ h2), if_pos h1]
    · intro h1 h2
      rw [if_neg (nle _ _ (by linarith)), if_neg (nle _ _ (by linarith)),
        if_neg (nle _ _ (by linarith)), if_neg (nle _ _ (by linarith)),
        if_neg (nle _ _ (by linarith)), if_neg (nle _ _ (by linarith)),
        if_neg (nle _ _ (by linarith)), if_neg (nle _ _ h2), if_pos h1]
    · intro h1 h2
      rw [if_neg (nle _ _ (by linarith)), if_neg (nle _ _ (by linarith)),
        if_neg (nle _ _ (by linarith)), if_neg (nle _ _ (by linarith)),
        if_neg (nle _ _ (by linarith)), if_neg (nle _ _ (by linarith)),
        if_neg (nle _ _ (by linarith)), if_neg (nle _ _ (by linarith)),
        if_neg (nle _ _ h2), if_pos h1]
    · intro h1 h2
      rw [if_neg (nle _ _ (by linarith)), if_neg (nle _ _ (by linarith)),
        if_neg (nle _ _ (by linarith)), if_neg (nle _ _ (by linarith)),
        if_neg (nle _ _ (by linarith)), if_neg (nle _ _ (by linarith)),
        if_neg (nle _ _ (by linarith)), if_neg (nle _ _ (by linarith)),
        if_neg (nle _ _ (by linarith)), if_neg (nle _ _ h2), if_pos h1]
    · intro h1 h2
      rw [if_neg (nle _ _ (by linarith)), if_neg (nle _ _ (by linarith)),
        if_neg (nle _ _ (by linarith)), if_neg (nle _ _ (by linarith)),
        if_neg (nle _ _ (by linarith)), if_neg (nle _ _ (by linarith)),
        if_neg (nle _ _ (by linarith)), if_neg (nle _ _ (by linarith)),
        if_neg (nle _ _ (by linarith)), if_neg (nle _ _ (by linarith)),
        if_neg (nle _ _ h2), if_pos h1]
    · intro h2
      rw [if_neg (nle _ _ (by linarith)), if_neg (nle _ _ (by linarith)),
        if_neg (nle _ _ (by linarith)), if_neg (nle _ _ (by linarith)),
        if_neg (nle _ _ (by linarith)), if_neg (nle _ _ (by linarith)),
        if_neg (nle _ _ (by linarith)), if_neg (nle _ _ (by linarith)),
        if_neg (nle _ _ (by linarith)), if_neg (nle _ _ (by linarith)),
        if_neg (nle _ _ (by linarith)), if_neg (nle _ _ h2)]

/-- C2 witness: a 97/100 grade saved with no letter grade stores A+. -/
theorem grade_letter_derivation_witness :
    (Grade.preSave gradeLetterW).score.letterGrade = some "A+" := by
  have h := (grade_letter_derivation gradeLetterW rfl).1
  rw [h]
  norm_num [gradeLetterW, Grade.calculatedPercentage, round2, jsRound, letterOf]

/-! ## Class model (classSchema) and the grade creation route -/

/-- An enrolledStudents entry of classSchema. -/
structure Enrollment where
  student : ℕ
  enrollmentDate : ℤ := 0
  status : String := "enrolled"
deriving DecidableEq

/-- The embedded schedule of classSchema; times are HH:MM strings. -/
structure Schedule where
  days : List String := []
  startTime : String
  endTime : String
deriving DecidableEq

/-- A class document (fields of classSchema the engine reads). -/
structure ClassDoc where
  id : ℕ
  className : String
  courseCode : String
  professor : ℕ
  semester : String
  year : ℕ
  schedule : Schedule
  enrolledStudents : List Enrollment := []
  maxEnrollment : ℕ := 30
  isActive : Bool := true
deriving DecidableEq

/-- The duplicate test of POST /api/grades: an existing grade h matches the
request body on student, class and assignment.name. -/
def isDuplicateOf (body h : Grade) : Bool :=
  h.student == body.student && h.«class» == body.«class» &&
    h.assignment.name == body.assignment.name

/-- The enrollment test of POST /api/grades: some enrolledStudents entry
references the student with status enrolled. -/
def isEnrolledIn (c : ClassDoc) (student : ℕ) : Bool :=
  c.enrolledStudents.any (fun e => e.student == student && e.status == "enrolled")

/-- POST /api/grades: verify the class belongs to the professor, verify the
student is enrolled, reject when a grade already exists for the
(student, class, assignment.name) triple, otherwise save the new grade. -/
def createGrade (classes : List ClassDoc) (db : List Grade) (professorId : ℕ)
    (body : Grade) : Except String (List Grade) :=
  match classes.find? (fun c => c.id == body.«class» && c.professor == professorId) with
  | none => .error "Class not found"
  | some classDoc =>
      if isEnrolledIn classDoc body.student then
        if db.any (isDuplicateOf body) then
          .error "Grade already exists for this assignment"
        else
          .ok (db ++ [Grade.preSave { body with professor := professorId }])
      else .error "Student is not enrolled in this class"

/-- The grade collection after a create request: unchanged when the request
fails, the returned collection when it succeeds. -/
def createGradeState (classes : List ClassDoc) (db : List Grade) (professorId : ℕ)
    (body : Grade) : List Grade :=
  match createGrade classes db professorId body with
  | .ok db2 => db2
  | .error _ => db

/-- C3: a create request for a (student, class, assignment.name) triple that
already has a grade fails with the duplicate error and leaves the stored
grades unchanged; a create for a triple with no existing grade is never
rejected by the duplicate check. -/
theorem grade_duplicate_create (classes : List ClassDoc) (db : List Grade)
    (pid : ℕ) (body : Grade) :
    (∀ classDoc,
      classes.find? (fun c => c.id == body.«class» && c.professor == pid) = some classDoc →
      isEnrolledIn classDoc body.student = true →
      db.any (isDuplicateOf body) = true →
      createGrade classes db pid body = .error "Grade already exists for this assignment") ∧
    (db.any (isDuplicateOf body) = true →
      (∃ msg, createGrade classes db pid body = .error msg) ∧
      createGradeState classes db pid body = db) ∧
    (db.any (isDuplicateOf body) = false →
      createGrade classes db pid body ≠ .error "Grade already exists for this assignment") := by
  refine ⟨?_, ?_, ?_⟩
  · intro classDoc hfind henr hdup
    unfold createGrade
    rw [hfind]
    dsimp only
    rw [if_pos henr, if_pos hdup]
  · intro hdup
    unfold createGradeState createGrade
    rcases hfind : classes.find? (fun c => c.id == body.«class» && c.professor == pid) with
      _ | classDoc
    · rw [hfind]
      exact ⟨⟨"Class not found", rfl⟩, rfl⟩
    · rw [hfind]
      dsimp only
      by_cases henr : isEnrolledIn classDoc body.student = true
      · rw [if_pos henr, if_pos hdup]
        exact ⟨⟨_, rfl⟩, rfl⟩
      · rw [if_neg henr]
        exact ⟨⟨_, rfl⟩, rfl⟩
  · intro hdup
    unfold createGrade
    rcases hfind : classes.find? (fun c => c.id == body.«class» && c.professor == pid) with
      _ | classDoc
    · rw [hfind]
      simp
    · rw [hfind]
      dsimp only
      by_cases henr : isEnrolledIn classDoc body.student = true
      · rw [if_pos henr, if_neg (by simp [hdup])]
        simp
      · rw [if_neg henr]
        simp

/-- The class used by the creation examples: student 10 is enrolled. -/
def classExample : ClassDoc :=
  { id := 1, className := "Algorithms", courseCode := "CS101", professor := 1,
    semester := "Fall", year := 2025,
    schedule := { startTime := "09:00", endTime := "10:30" },
    enrolledStudents := [{ student := 10 }] }

/-- A stored grade for student 10, class 1, assignment HW1. -/
def storedGrade : Grade :=
  { student := 10, «class» := 1, professor := 1,
    assignment := { name := "HW1", type := "homework", maxPoints := 10 },
    score := { points := 9 } }

/-- A create request for the same (student, class, assignment.name) triple. -/
def duplicateBody : Grade :=
  { student := 10, «class» := 1, professor := 1,
    assignment := { name := "HW1", type := "homework", maxPoints := 10 },
    score := { points := 7 } }

/-- A create request for a triple with no existing grade. -/
def freshBody : Grade :=
  { student := 10, «class» := 1, professor := 1,
    assignment := { name := "HW2", type := "homework", maxPoints := 10 },
    score := { points := 7 } }

/-- C3 witness: with grade HW1 stored, creating HW1 again fails with the
duplicate error leaving the collection unchanged, while creating HW2 is not
rejected by the duplicate check. -/
theorem grade_duplicate_create_witness :
    createGrade [classExample] [storedGrade] 1 duplicateBody =
      .error "Grade already exists for this assignment" ∧
    createGradeState [classExample] [storedGrade] 1 duplicateBody = [storedGrade] ∧
    createGrade [classExample] [storedGrade] 1 freshBody ≠
      .error "Grade already exists for this assignment" := by
  refine ⟨?_, ?_, ?_⟩
  · exact (grade_duplicate_create [classExample] [storedGrade] 1 duplicateBody).1
      classExample (by decide) (by decide) (by decide)
  · exact ((grade_duplicate_create [classExample] [storedGrade] 1 duplicateBody).2.1
      (by decide)).2
  · exact (grade_duplicate_create [classExample] [storedGrade] 1 freshBody).2.2 (by decide)

/-! ## Calendar event model (calendarEventSchema) -/

/-- An attendees entry of calendarEventSchema. -/
structure Attendee where
  student : ℕ
  status : String := "invited"
deriving DecidableEq

/-- A calendar event document.  Date-times are milliseconds since the epoch
(the value a JS Date compares by); the day component of a local date-time d is
fdiv d 86400000, so setHours works on that day index.  The schema stores a
structured location, but the sync service reads it as a flat string
(event.location or the empty string), which is how it is modelled here. -/
structure CalendarEvent where
  title : String
  description : String := ""
  professor : ℕ
  «class» : Option ℕ := none
  eventType : String
  startDateTime : ℤ
  endDateTime : ℤ
  isAllDay : Bool := false
  location : String := ""
  attendees : List Attendee := []
  priority : String := "medium"
  status : String := "scheduled"
  id : ℕ := 0
deriving DecidableEq

/-- The 16-value eventType enum of calendarEventSchema. -/
def eventTypeEnum : List String :=
  ["lecture", "exam", "quiz", "assignment_due", "project_due", "office_hours",
   "meeting", "conference", "holiday", "break", "deadline", "presentation",
   "lab", "seminar", "workshop", "other"]

/-- Milliseconds per calendar day. -/
def msPerDay : ℤ := 86400000

/-- The calendar day index of a date-time (floor division; / on ℤ is
Euclidean division, which floors for the positive divisor msPerDay). -/
def dayIndex (t : ℤ) : ℤ := t / msPerDay

/-- setHours(0, 0, 0, 0): midnight of the same calendar day. -/
def startOfDay (t : ℤ) : ℤ := dayIndex t * msPerDay

/-- setHours(23, 59, 59, 999): last millisecond of the same calendar day. -/
def endOfDay (t : ℤ) : ℤ := dayIndex t * msPerDay + 86399999

/-- The pre-save validation of calendarEventSchema: reject end ≤ start, then
normalize all-day events to the bounds of their calendar days. -/
def CalendarEvent.preSave (e : CalendarEvent) : Except String CalendarEvent :=
  if e.endDateTime ≤ e.startDateTime then
    .error "End date and time must be after start date and time"
  else if e.isAllDay then
    .ok { e with startDateTime := startOfDay e.startDateTime,
                 endDateTime := endOfDay e.endDateTime }
  else .ok e

/-- Number applied to one split component: digits to a natural number (the
schema regex guarantees HH:MM digit strings reach the hook). -/
def charsToNat (l : List Char) : ℕ :=
  l.foldl (fun acc c => acc * 10 + (c.toNat - 48)) 0

/-- startTime.split(COLON).map(Number) then hours*60 + minutes. -/
def timeToMinutes (s : String) : ℕ :=
  let parts := (s.data.splitOn ':').map charsToNat
  (parts.getD 0 0) * 60 + parts.getD 1 0

/-- The pre-save validation of classSchema: reject schedules whose end time in
minutes-since-midnight is not after the start time. -/
def ClassDoc.preSave (c : ClassDoc) : Except String ClassDoc :=
  if timeToMinutes c.schedule.endTime ≤ timeToMinutes c.schedule.startTime then
    .error "End time must be after start time"
  else .ok c

/-- C6: event save fails exactly when endDateTime ≤ startDateTime (so end 1 ms
after start succeeds), and class save fails exactly when the schedule endTime,
parsed to minutes-since-midnight, is ≤ the startTime. -/
theorem time_range_validation :
    (∀ e : CalendarEvent, e.endDateTime ≤ e.startDateTime →
      e.preSave = .error "End date and time must be after start date and time") ∧
    (∀ e : CalendarEvent, e.startDateTime < e.endDateTime → ∃ e2, e.preSave = .ok e2) ∧
    (∀ c : ClassDoc,
      timeToMinutes c.schedule.endTime ≤ timeToMinutes c.schedule.startTime →
      c.preSave = .error "End time must be after start time") ∧
    (∀ c : ClassDoc,
      timeToMinutes c.schedule.startTime < timeToMinutes c.schedule.endTime →
      c.preSave = .ok c) := by
  refine ⟨?_, ?_, ?_, ?_⟩
  · intro e h
    unfold CalendarEvent.preSave
    rw [if_pos h]
  · intro e h
    unfold CalendarEvent.preSave
    rw [if_neg (not_le.mpr h)]
    by_cases ha : e.isAllDay = true
    · rw [if_pos ha]; exact ⟨_, rfl⟩
    · rw [if_neg ha]; exact ⟨_, rfl⟩
  · intro c h
    unfold ClassDoc.preSave
    rw [if_pos h]
  · intro c h
    unfold ClassDoc.preSave
    rw [if_neg (not_le.mpr h)]

/-- An event whose end equals its start. -/
def eventDegenerate : CalendarEvent :=
  { title := "Sync", professor := 1, eventType := "meeting",
    startDateTime := 1741616520000, endDateTime := 1741616520000 }

/-- An event whose end is 1 ms after its start. -/
def eventOneMs : CalendarEvent :=
  { title := "Sync", professor := 1, eventType := "meeting",
    startDateTime := 1741616520000, endDateTime := 1741616520001 }

/-- A class scheduled 09:00 to 10:30, and one scheduled 10:30 to 10:30. -/
def classGoodTimes : ClassDoc :=
  { id := 2, className := "Databases", courseCode := "CS200", professor := 1,
    semester := "Fall", year := 2025,
    schedule := { startTime := "09:00", endTime := "10:30" } }

/-- A class whose end time equals its start time. -/
def classEqualTimes : ClassDoc :=
  { id := 3, className := "Networks", courseCode := "CS300", professor := 1,
    semester := "Fall", year := 2025,
    schedule := { startTime := "10:30", endTime := "10:30" } }

/-- C6 witness: equal timestamps are rejected and 1 ms apart accepted; the
09:00 to 10:30 schedule is accepted and the 10:30 to 10:30 one rejected. -/
theorem time_range_validation_witness :
    eventDegenerate.preSave =
      .error "End date and time must be after start date and time" ∧
    (∃ e2, eventOneMs.preSave = .ok e2) ∧
    classEqualTimes.preSave = .error "End time must be after start time" ∧
    classGoodTimes.preSave = .ok classGoodTimes := by
  refine ⟨?_, ?_, ?_, ?_⟩
  · exact time_range_validation.1 eventDegenerate (by decide)
  · exact time_range_validation.2.1 eventOneMs (by decide)
  · exact time_range_validation.2.2.1 classEqualTimes (by decide)
  · exact time_range_validation.2.2.2 classGoodTimes (by decide)

/-- The all-day event of the C7 example: 2025-03-10T14:22:00 to
2025-03-10T16:00:00 local, isAllDay = true. -/
def eventAllDay : CalendarEvent :=
  { title := "Open house", professor := 1, eventType := "other",
    startDateTime := 1741616520000, endDateTime := 1741622400000,
    isAllDay := true }

/-- C7: a saved all-day event gets startDateTime moved to millisecond 0 and
endDateTime to millisecond 86399999 of their own calendar days; an event that
is not all-day is stored with start and end unchanged. -/
theorem all_day_normalization :
    (∀ e : CalendarEvent, e.isAllDay = true → e.startDateTime < e.endDateTime →
      e.preSave = .ok { e with startDateTime := startOfDay e.startDateTime,
                               endDateTime := endOfDay e.endDateTime }) ∧
    (∀ e : CalendarEvent, e.isAllDay = false → e.startDateTime < e.endDateTime →
      e.preSave = .ok e) ∧
    (∀ t : ℤ, dayIndex (startOfDay t) = dayIndex t ∧
      startOfDay t - dayIndex t * msPerDay = 0 ∧
      dayIndex (endOfDay t) = dayIndex t ∧
      endOfDay t - dayIndex t * msPerDay = 86399999) := by
  refine ⟨?_, ?_, ?_⟩
  · intro e ha h
    unfold CalendarEvent.preSave
    rw [if_neg (not_le.mpr h), if_pos ha]
  · intro e ha h
    unfold CalendarEvent.preSave
    rw [if_neg (not_le.mpr h), if_neg (by simp [ha])]
  · intro t
    have h1 : dayIndex (startOfDay t) = dayIndex t := by
      unfold startOfDay dayIndex msPerDay
      omega
    refine ⟨h1, by unfold startOfDay; ring, ?_, by unfold endOfDay; ring⟩
    unfold endOfDay dayIndex msPerDay
    omega

/-- C7 witness: the 2025-03-10T14:22 all-day event is stored as
2025-03-10T00:00:00.000 to 2025-03-10T23:59:59.999 (epoch milliseconds). -/
theorem all_day_normalization_witness :
    eventAllDay.preSave =
      .ok { eventAllDay with startDateTime := 1741564800000,
                             endDateTime := 1741651199999 } := by
  have h := all_day_normalization.1 eventAllDay rfl (by decide)
  rw [h]
  norm_num [startOfDay, endOfDay, dayIndex, msPerDay, eventAllDay]


/-! ## Adding attendees (POST /api/calendar/events/:id/attendees) -/

/-- The student ids already on the attendee list. -/
def attendeeStudents (atts : List Attendee) : List ℕ := atts.map (·.student)

/-- The attendee loop of the route: for each requested id, push
(student, invited) unless some attendee already references that student;
the membership test runs against the list as built so far. -/
def addAttendees (atts : List Attendee) (studentIds : List ℕ) : List Attendee :=
  studentIds.foldl
    (fun acc sid =>
      if acc.any (fun a => a.student == sid) then acc
      else acc ++ [{ student := sid, status := "invited" }])
    atts

lemma any_student_iff (atts : List Attendee) (sid : ℕ) :
    atts.any (fun a => a.student == sid) = true ↔ sid ∈ attendeeStudents atts := by
  simp [attendeeStudents, List.any_eq_true, List.mem_map]

lemma addAttendees_skip (atts : List Attendee) (sid : ℕ) (ids : List ℕ)
    (h : sid ∈ attendeeStudents atts) :
    addAttendees atts (sid :: ids) = addAttendees atts ids := by
  unfold addAttendees
  rw [List.foldl_cons, if_pos ((any_student_iff atts sid).mpr h)]

lemma addAttendees_push (atts : List Attendee) (sid : ℕ) (ids : List ℕ)
    (h : sid ∉ attendeeStudents atts) :
    addAttendees atts (sid :: ids) =
      addAttendees (atts ++ [{ student := sid, status := "invited" }]) ids := by
  unfold addAttendees
  rw [List.foldl_cons, if_neg]
  intro hc
  exact h ((any_student_iff atts sid).mp hc)

lemma addAttendees_suffix (ids : List ℕ) :
    ∀ atts : List Attendee, ∃ suffix,
      addAttendees atts ids = atts ++ suffix ∧
      ∀ a ∈ suffix, a.status = "invited" ∧ a.student ∈ ids ∧
        a.student ∉ attendeeStudents atts := by
  induction ids with
  | nil => intro atts; exact ⟨[], by simp [addAttendees], by simp⟩
  | cons j js ih =>
    intro atts
    by_cases hj : j ∈ attendeeStudents atts
    · obtain ⟨s, hs, hprop⟩ := ih atts
      refine ⟨s, by rw [addAttendees_skip atts j js hj]; exact hs, ?_⟩
      intro a ha
      obtain ⟨h1, h2, h3⟩ := hprop a ha
      exact ⟨h1, List.mem_cons_of_mem j h2, h3⟩
    · obtain ⟨s, hs, hprop⟩ := ih (atts ++ [{ student := j, status := "invited" }])
      refine ⟨{ student := j, status := "invited" } :: s, ?_, ?_⟩
      · rw [addAttendees_push atts j js hj, hs]
        simp
      · intro a ha
        rcases List.mem_cons.mp ha with rfl | ha2
        · exact ⟨rfl, List.mem_cons_self _ _, hj⟩
        · obtain ⟨h1, h2, h3⟩ := hprop a ha2
          refine ⟨h1, List.mem_cons_of_mem j h2, fun hc => h3 ?_⟩
          unfold attendeeStudents at hc ⊢
          rw [List.map_append]
          exact List.mem_append_left _ hc

lemma addAttendees_count (ids : List ℕ) :
    ∀ atts : List Attendee, ∀ i : ℕ,
      (attendeeStudents (addAttendees atts ids)).count i =
        (attendeeStudents atts).count i +
          (if i ∈ ids ∧ i ∉ attendeeStudents atts then 1 else 0) := by
  induction ids with
  | nil => intro atts i; simp [addAttendees]
  | cons j js ih =>
    intro atts i
    by_cases hj : j ∈ attendeeStudents atts
    · rw [addAttendees_skip atts j js hj, ih atts i]
      have hiff : (i ∈ js ∧ i ∉ attendeeStudents atts) ↔
          (i ∈ j :: js ∧ i ∉ attendeeStudents atts) := by
        constructor
        · rintro ⟨h1, h2⟩; exact ⟨List.mem_cons_of_mem j h1, h2⟩
        · rintro ⟨h1, h2⟩
          refine ⟨?_, h2⟩
          rcases List.mem_cons.mp h1 with rfl | h1b
          · exact absurd hj h2
          · exact h1b
      rw [if_congr hiff rfl rfl]
    · rw [addAttendees_push atts j js hj,
        ih (atts ++ [({ student := j, status := "invited" } : Attendee)]) i]
      have hstu : attendeeStudents (atts ++ [({ student := j, status := "invited" } : Attendee)]) =
          attendeeStudents atts ++ [j] := by
        unfold attendeeStudents; rw [List.map_append]; rfl
      rw [hstu, List.count_append]
      by_cases hi : i = j
      · subst hi
        have hc1 : [i].count i = 1 := by simp
        have hnot : ¬ (i ∈ js ∧ i ∉ attendeeStudents atts ++ [i]) := by
          rintro ⟨_, hb⟩
          exact hb (List.mem_append_right _ (List.mem_singleton.mpr rfl))
        rw [hc1, if_neg hnot, if_pos ⟨List.mem_cons_self _ _, hj⟩]
      · have hc0 : [j].count i = 0 := by
          simp [List.count_singleton]
          omega
        have hiff : (i ∈ js ∧ i ∉ attendeeStudents atts ++ [j]) ↔
            (i ∈ j :: js ∧ i ∉ attendeeStudents atts) := by
          constructor
          · rintro ⟨ha, hb⟩
            exact ⟨List.mem_cons_of_mem j ha, fun hc => hb (List.mem_append_left _ hc)⟩
          · rintro ⟨ha, hb⟩
            have ha2 : i ∈ js := by
              rcases List.mem_cons.mp ha with rfl | h2b
              · exact absurd rfl hi
              · exact h2b
            refine ⟨ha2, fun hc => ?_⟩
            rcases List.mem_append.mp hc with hc2 | hc2
            · exact hb hc2
            · exact hi (List.mem_singleton.mp hc2)
        rw [hc0, if_congr hiff rfl rfl]
        omega

lemma addAttendees_no_new (ids : List ℕ) :
    ∀ atts : List Attendee, (∀ i ∈ ids, i ∈ attendeeStudents atts) →
      addAttendees atts ids = atts := by
  induction ids with
  | nil => intro atts _; rfl
  | cons j js ih =>
    intro atts h
    rw [addAttendees_skip atts j js (h j (List.mem_cons_self _ _))]
    exact ih atts fun i hi => h i (List.mem_cons_of_mem j hi)

/-- C8: adding attendees appends, with status invited, exactly one entry per
requested student id not already present (the count of an id in the result is
its old count plus one exactly when it was requested and absent, so duplicates
within one call collapse and present ids add nothing); existing entries are
kept unchanged as a prefix; a repeated call with the same ids adds nothing;
and [s1, s1, s2] on an empty list yields exactly the entries s1 and s2. -/
theorem add_attendees_idempotent :
    (∀ (atts : List Attendee) (ids : List ℕ), ∃ suffix,
      addAttendees atts ids = atts ++ suffix ∧
      ∀ a ∈ suffix, a.status = "invited" ∧ a.student ∈ ids ∧
        a.student ∉ attendeeStudents atts) ∧
    (∀ (atts : List Attendee) (ids : List ℕ) (i : ℕ),
      (attendeeStudents (addAttendees atts ids)).count i =
        (attendeeStudents atts).count i +
          (if i ∈ ids ∧ i ∉ attendeeStudents atts then 1 else 0)) ∧
    (∀ (atts : List Attendee) (ids : List ℕ),
      addAttendees (addAttendees atts ids) ids = addAttendees atts ids) ∧
    addAttendees [] [1, 1, 2] =
      [{ student := 1, status := "invited" }, { student := 2, status := "invited" }] := by
  refine ⟨fun atts ids => addAttendees_suffix ids atts,
    fun atts ids i => addAttendees_count ids atts i, ?_, by rfl⟩
  intro atts ids
  apply addAttendees_no_new
  intro i hi
  have hc := addAttendees_count ids atts i
  by_cases hmem : i ∈ attendeeStudents atts
  · obtain ⟨s, hs, _⟩ := addAttendees_suffix ids atts
    rw [hs]
    unfold attendeeStudents at hmem ⊢
    rw [List.map_append]
    exact List.mem_append_left _ hmem
  · rw [if_pos ⟨hi, hmem⟩] at hc
    have : 0 < (attendeeStudents (addAttendees atts ids)).count i := by omega
    exact List.count_pos_iff.mp this

/-! ## Class grade summary (GET /api/grades/class/:classId/summary) -/

/-- Worker for dedupFirst carrying the set of ids already seen. -/
def dedupFirstGo : List ℕ → List ℕ → List ℕ
  | [], _ => []
  | a :: l, seen => if a ∈ seen then dedupFirstGo l seen else a :: dedupFirstGo l (a :: seen)

/-- First-occurrence deduplication: the key order a JS object gives the
grouped student ids. -/
def dedupFirst (l : List ℕ) : List ℕ := dedupFirstGo l []

/-- The grouped student ids of the summary, in first-appearance order. -/
def groupedStudents (gs : List Grade) : List ℕ := dedupFirst (gs.map (·.student))

/-- The grades of student s that count toward totals: not excused, not extra. -/
def countedGrades (gs : List Grade) (s : ℕ) : List Grade :=
  gs.filter (fun g => g.student == s && !g.isExcused && !g.isExtra)

/-- The summed points of a student across counted grades. -/
def totalPoints (gs : List Grade) (s : ℕ) : ℚ :=
  ((countedGrades gs s).map (fun g => g.score.points)).sum

/-- The summed maxPoints of a student across counted grades. -/
def totalMaxPoints (gs : List Grade) (s : ℕ) : ℚ :=
  ((countedGrades gs s).map (fun g => g.assignment.maxPoints)).sum

/-- The final percentage of a student: 0 unless the summed maxPoints is
positive, else Math.round((totalPoints / maxTotalPoints) * 100 * 100) / 100. -/
def studentPercentage (gs : List Grade) (s : ℕ) : ℚ :=
  if 0 < totalMaxPoints gs s then round2 (totalPoints gs s / totalMaxPoints gs s * 100)
  else 0

/-- The per-student percentages that are strictly positive, in group order. -/
def positivePercentages (gs : List Grade) : List ℚ :=
  ((groupedStudents gs).map (studentPercentage gs)).filter (fun p => decide (0 < p))

/-- Math.max over a spread non-empty list. -/
def maxListQ : List ℚ → ℚ
  | [] => 0
  | a :: l => l.foldl max a

/-- Math.min over a spread non-empty list. -/
def minListQ : List ℚ → ℚ
  | [] => 0
  | a :: l => l.foldl min a

/-- The statistics block of the class summary response. -/
structure ClassStatistics where
  totalStudents : ℕ
  totalGrades : ℕ
  classAverage : ℚ
  highestGrade : ℚ
  lowestGrade : ℚ
deriving DecidableEq

/-- The class summary route: group grades by student, derive per-student
percentages, and compute the class statistics. -/
def classSummary (gs : List Grade) : ClassStatistics :=
  let percentages := positivePercentages gs
  { totalStudents := (groupedStudents gs).length
    totalGrades := gs.length
    classAverage :=
      if 0 < percentages.length then round2 (percentages.sum / percentages.length) else 0
    highestGrade := if 0 < percentages.length then maxListQ percentages else 0
    lowestGrade := if 0 < percentages.length then minListQ percentages else 0 }

lemma mem_dedupFirstGo (x : ℕ) :
    ∀ (l seen : List ℕ), x ∈ dedupFirstGo l seen ↔ x ∈ l ∧ x ∉ seen := by
  intro l
  induction l with
  | nil => intro seen; simp [dedupFirstGo]
  | cons a t ih =>
    intro seen
    unfold dedupFirstGo
    by_cases ha : a ∈ seen
    · rw [if_pos ha, ih seen]
      constructor
      · rintro ⟨h1, h2⟩; exact ⟨List.mem_cons_of_mem a h1, h2⟩
      · rintro ⟨h1, h2⟩
        rcases List.mem_cons.mp h1 with rfl | h1b
        · exact absurd ha h2
        · exact ⟨h1b, h2⟩
    · rw [if_neg ha]
      constructor
      · intro hx
        rcases List.mem_cons.mp hx with rfl | hx2
        · exact ⟨List.mem_cons_self _ _, ha⟩
        · obtain ⟨h1, h2⟩ := (ih (a :: seen)).mp hx2
          exact ⟨List.mem_cons_of_mem a h1,
            fun hc => h2 (List.mem_cons_of_mem a hc)⟩
      · rintro ⟨h1, h2⟩
        rcases List.mem_cons.mp h1 with rfl | h1b
        · exact List.mem_cons_self _ _
        · by_cases hxa : x = a
          · subst hxa; exact List.mem_cons_self _ _
          · refine List.mem_cons_of_mem a ((ih (a :: seen)).mpr ⟨h1b, ?_⟩)
            intro hc
            rcases List.mem_cons.mp hc with h | h
            · exact hxa h
            · exact h2 h

lemma nodup_dedupFirstGo :
    ∀ (l seen : List ℕ), (dedupFirstGo l seen).Nodup := by
  intro l
  induction l with
  | nil => intro seen; simp [dedupFirstGo]
  | cons a t ih =>
    intro seen
    unfold dedupFirstGo
    by_cases ha : a ∈ seen
    · rw [if_pos ha]; exact ih seen
    · rw [if_neg ha]
      refine List.nodup_cons.mpr ⟨?_, ih (a :: seen)⟩
      intro hc
      exact ((mem_dedupFirstGo a t (a :: seen)).mp hc).2 (List.mem_cons_self _ _)

lemma dedupFirst_toFinset (l : List ℕ) : (dedupFirst l).toFinset = l.toFinset := by
  ext x
  simp only [List.mem_toFinset, dedupFirst, mem_dedupFirstGo]
  simp

lemma nodup_dedupFirst (l : List ℕ) : (dedupFirst l).Nodup := nodup_dedupFirstGo l []

lemma length_dedupFirst (l : List ℕ) : (dedupFirst l).length = l.toFinset.card := by
  rw [← dedupFirst_toFinset l]
  exact (List.toFinset_card_of_nodup (nodup_dedupFirst l)).symm

lemma foldl_max_ge (l : List ℚ) : ∀ a : ℚ, a ≤ l.foldl max a ∧ ∀ p ∈ l, p ≤ l.foldl max a := by
  induction l with
  | nil => intro a; simp
  | cons b t ih =>
    intro a
    rw [List.foldl_cons]
    obtain ⟨h1, h2⟩ := ih (max a b)
    refine ⟨le_trans (le_max_left a b) h1, ?_⟩
    intro p hp
    rcases List.mem_cons.mp hp with rfl | hp2
    · exact le_trans (le_max_right a p) h1
    · exact h2 p hp2

lemma foldl_max_mem (l : List ℚ) : ∀ a : ℚ, l.foldl max a = a ∨ l.foldl max a ∈ l := by
  induction l with
  | nil => intro a; simp
  | cons b t ih =>
    intro a
    rw [List.foldl_cons]
    rcases ih (max a b) with h | h
    · rcases max_choice a b with hc | hc
      · exact Or.inl (h.trans hc)
      · exact Or.inr (by rw [h, hc]; exact List.mem_cons_self _ _)
    · exact Or.inr (List.mem_cons_of_mem b h)

lemma foldl_min_le (l : List ℚ) : ∀ a : ℚ, l.foldl min a ≤ a ∧ ∀ p ∈ l, l.foldl min a ≤ p := by
  induction l with
  | nil => intro a; simp
  | cons b t ih =>
    intro a
    rw [List.foldl_cons]
    obtain ⟨h1, h2⟩ := ih (min a b)
    refine ⟨le_trans h1 (min_le_left a b), ?_⟩
    intro p hp
    rcases List.mem_cons.mp hp with rfl | hp2
    · exact le_trans h1 (min_le_right a p)
    · exact h2 p hp2

lemma foldl_min_mem (l : List ℚ) : ∀ a : ℚ, l.foldl min a = a ∨ l.foldl min a ∈ l := by
  induction l with
  | nil => intro a; simp
  | cons b t ih =>
    intro a
    rw [List.foldl_cons]
    rcases ih (min a b) with h | h
    · rcases min_choice a b with hc | hc
      · exact Or.inl (h.trans hc)
      · exact Or.inr (by rw [h, hc]; exact List.mem_cons_self _ _)
    · exact Or.inr (List.mem_cons_of_mem b h)

lemma maxListQ_spec (l : List ℚ) (h : l ≠ []) :
    maxListQ l ∈ l ∧ ∀ p ∈ l, p ≤ maxListQ l := by
  rcases l with _ | ⟨a, t⟩
  · exact absurd rfl h
  · simp only [maxListQ]
    constructor
    · rcases foldl_max_mem t a with h2 | h2
      · rw [h2]; exact List.mem_cons_self _ _
      · exact List.mem_cons_of_mem a h2
    · intro p hp
      obtain ⟨h1, h2⟩ := foldl_max_ge t a
      rcases List.mem_cons.mp hp with rfl | hp2
      · exact h1
      · exact h2 p hp2

lemma minListQ_spec (l : List ℚ) (h : l ≠ []) :
    minListQ l ∈ l ∧ ∀ p ∈ l, minListQ l ≤ p := by
  rcases l with _ | ⟨a, t⟩
  · exact absurd rfl h
  · simp only [minListQ]
    constructor
    · rcases foldl_min_mem t a with h2 | h2
      · rw [h2]; exact List.mem_cons_self _ _
      · exact List.mem_cons_of_mem a h2
    · intro p hp
      obtain ⟨h1, h2⟩ := foldl_min_le t a
      rcases List.mem_cons.mp hp with rfl | hp2
      · exact h1
      · exact h2 p hp2

/-- Three-student example: full marks (50/50), 80 percent (40/50), and one
student with only an excused grade. -/
def summaryExample : List Grade :=
  [ { student := 1, «class» := 7, professor := 1,
      assignment := { name := "Exam", type := "exam", maxPoints := 50 },
      score := { points := 50 } },
    { student := 2, «class» := 7, professor := 1,
      assignment := { name := "Exam", type := "exam", maxPoints := 50 },
      score := { points := 40 } },
    { student := 3, «class» := 7, professor := 1,
      assignment := { name := "Exam", type := "exam", maxPoints := 50 },
      score := { points := 30 }, isExcused := true } ]

/-- C4: the class summary counts every grade, counts every grouped student
(one per distinct student id), derives each student percentage from the
non-excused non-extra grades only (0 when the summed maxPoints is 0),
averages the strictly positive per-student percentages (0 when there are
none), and reports their maximum and minimum (0 when there are none); on the
three-student example it yields classAverage 90, totalStudents 3,
highestGrade 100, lowestGrade 80. -/
theorem class_summary_statistics :
    (∀ gs : List Grade,
      (classSummary gs).totalGrades = gs.length ∧
      (classSummary gs).totalStudents = (gs.map (fun g => g.student)).toFinset.card ∧
      (positivePercentages gs ≠ [] →
        (classSummary gs).classAverage =
          round2 ((positivePercentages gs).sum / (positivePercentages gs).length) ∧
        (classSummary gs).highestGrade ∈ positivePercentages gs ∧
        (∀ p ∈ positivePercentages gs, p ≤ (classSummary gs).highestGrade) ∧
        (classSummary gs).lowestGrade ∈ positivePercentages gs ∧
        (∀ p ∈ positivePercentages gs, (classSummary gs).lowestGrade ≤ p)) ∧
      (positivePercentages gs = [] →
        (classSummary gs).classAverage = 0 ∧
        (classSummary gs).highestGrade = 0 ∧
        (classSummary gs).lowestGrade = 0)) ∧
    (∀ (gs : List Grade) (s : ℕ), studentPercentage gs s =
      (if 0 < ((gs.filter (fun g => g.student == s && !g.isExcused && !g.isExtra)).map
            (fun g => g.assignment.maxPoints)).sum then
        round2 (((gs.filter (fun g => g.student == s && !g.isExcused && !g.isExtra)).map
            (fun g => g.score.points)).sum /
          ((gs.filter (fun g => g.student == s && !g.isExcused && !g.isExtra)).map
            (fun g => g.assignment.maxPoints)).sum * 100)
      else 0)) ∧
    positivePercentages summaryExample = [100, 80] ∧
    classSummary summaryExample =
      { totalStudents := 3, totalGrades := 3, classAverage := 90,
        highestGrade := 100, lowestGrade := 80 } := by
  have hpos : ∀ gs : List Grade, positivePercentages gs ≠ [] →
      0 < (positivePercentages gs).length := fun gs h => List.length_pos.mpr h
  refine ⟨?_, ?_, ?_, ?_⟩
  · intro gs
    refine ⟨rfl, ?_, ?_, ?_⟩
    · show (groupedStudents gs).length = _
      exact length_dedupFirst (gs.map (fun g => g.student))
    · intro hne
      have hlen := hpos gs hne
      obtain ⟨hmax_mem, hmax_le⟩ := maxListQ_spec (positivePercentages gs) hne
      obtain ⟨hmin_mem, hmin_le⟩ := minListQ_spec (positivePercentages gs) hne
      refine ⟨?_, ?_, ?_, ?_, ?_⟩
      · show (if 0 < (positivePercentages gs).length then _ else _) = _
        rw [if_pos hlen]
      · show (if 0 < (positivePercentages gs).length then _ else _) ∈ _
        rw [if_pos hlen]; exact hmax_mem
      · intro p hp
        show p ≤ (if 0 < (positivePercentages gs).length then _ else _)
        rw [if_pos hlen]; exact hmax_le p hp
      · show (if 0 < (positivePercentages gs).length then _ else _) ∈ _
        rw [if_pos hlen]; exact hmin_mem
      · intro p hp
        show (if 0 < (positivePercentages gs).length then _ else _) ≤ p
        rw [if_pos hlen]; exact hmin_le p hp
    · intro hemp
      have hlen : ¬ 0 < (positivePercentages gs).length := by
        rw [hemp]; simp
      refine ⟨?_, ?_, ?_⟩ <;>
        (show (if 0 < (positivePercentages gs).length then _ else _) = _
         rw [if_neg hlen])
  · intro gs s
    rfl
  · show ((groupedStudents summaryExample).map (studentPercentage summaryExample)).filter _ = _
    have h1 : groupedStudents summaryExample = [1, 2, 3] := by rfl
    rw [h1]
    have hp1 : studentPercentage summaryExample 1 = 100 := by
      unfold studentPercentage totalPoints totalMaxPoints countedGrades summaryExample
      norm_num [round2, jsRound]
    have hp2 : studentPercentage summaryExample 2 = 80 := by
      unfold studentPercentage totalPoints totalMaxPoints countedGrades summaryExample
      norm_num [round2, jsRound]
    have hp3 : studentPercentage summaryExample 3 = 0 := by
      unfold studentPercentage totalPoints totalMaxPoints countedGrades summaryExample
      norm_num
    rw [List.map_cons, List.map_cons, List.map_cons, List.map_nil, hp1, hp2, hp3]
    norm_num
  · have h2 : positivePercentages summaryExample = [100, 80] := by
      show ((groupedStudents summaryExample).map (studentPercentage summaryExample)).filter _ = _
      have h1 : groupedStudents summaryExample = [1, 2, 3] := by rfl
      rw [h1]
      have hp1 : studentPercentage summaryExample 1 = 100 := by
        unfold studentPercentage totalPoints totalMaxPoints countedGrades summaryExample
        norm_num [round2, jsRound]
      have hp2 : studentPercentage summaryExample 2 = 80 := by
        unfold studentPercentage totalPoints totalMaxPoints countedGrades summaryExample
        norm_num [round2, jsRound]
      have hp3 : studentPercentage summaryExample 3 = 0 := by
        unfold studentPercentage totalPoints totalMaxPoints countedGrades summaryExample
        norm_num
      rw [List.map_cons, List.map_cons, List.map_cons, List.map_nil, hp1, hp2, hp3]
      norm_num
    unfold classSummary
    rw [h2]
    have hlen : (0:ℕ) < ([100, 80] : List ℚ).length := by simp
    refine ClassStatistics.mk.injEq _ _ _ _ _ _ _ _ _ _ ▸ ?_
    simp only [if_pos hlen]
    refine ⟨rfl, rfl, ?_, ?_, ?_⟩ <;> norm_num [maxListQ, minListQ, round2, jsRound]

/-- C4 witness: on the three-student example the reported highest grade is
one of the positive per-student percentages and the class average is the
rounded mean of those percentages. -/
theorem class_summary_statistics_witness :
    (classSummary summaryExample).highestGrade ∈ positivePercentages summaryExample ∧
    (classSummary summaryExample).classAverage =
      round2 ((positivePercentages summaryExample).sum /
        (positivePercentages summaryExample).length) := by
  have hne : positivePercentages summaryExample ≠ [] := by
    rw [class_summary_statistics.2.2.1]
    simp
  have h := (class_summary_statistics.1 summaryExample).2.2.1 hne
  exact ⟨h.2.1, h.1⟩

/-! ## Decimal rendering used by the iCalendar interchange model -/

/-- A decimal digit character. -/
def digitChar : ℕ → Char
  | 0 => '0' | 1 => '1' | 2 => '2' | 3 => '3' | 4 => '4'
  | 5 => '5' | 6 => '6' | 7 => '7' | 8 => '8' | _ => '9'

/-- The numeric value of a digit character. -/
def digitVal (c : Char) : ℕ := c.toNat - 48

/-- Decimal digits of a natural number, most significant first. -/
def natDigits (n : ℕ) : List Char :=
  if _h : n < 10 then [digitChar n]
  else natDigits (n / 10) ++ [digitChar (n % 10)]
termination_by n
decreasing_by
  exact Nat.div_lt_self (by omega) (by norm_num)

/-- Decimal reading of a digit string. -/
def parseNat (l : List Char) : ℕ :=
  l.foldl (fun acc c => 10 * acc + digitVal c) 0

/-- Signed decimal rendering of an integer. -/
def intChars (n : ℤ) : List Char :=
  if n < 0 then '-' :: natDigits (-n).toNat else natDigits n.toNat

/-- Signed decimal reading. -/
def parseInt (l : List Char) : ℤ :=
  if l.head? = some '-' then -(parseNat l.tail : ℤ) else (parseNat l : ℤ)

lemma digitVal_digitChar (n : ℕ) (h : n < 10) : digitVal (digitChar n) = n := by
  interval_cases n <;> decide

lemma parseNat_append_digit (l : List Char) (c : Char) :
    parseNat (l ++ [c]) = 10 * parseNat l + digitVal c := by
  unfold parseNat
  rw [List.foldl_append]
  rfl

lemma natDigits_mem (n : ℕ) :
    ∀ c ∈ natDigits n, c ∈ ['0', '1', '2', '3', '4', '5', '6', '7', '8', '9'] := by
  induction n using Nat.strong_induction_on with
  | _ n ih =>
    intro c hc
    rw [natDigits] at hc
    split at hc
    · rw [List.mem_singleton] at hc
      subst hc
      next _ => interval_cases n <;> decide
    · rcases List.mem_append.mp hc with h2 | h2
      · next h =>
        exact ih (n / 10) (Nat.div_lt_self (by omega) (by norm_num)) c h2
      · rw [List.mem_singleton] at h2
        subst h2
        have hm : n % 10 < 10 := Nat.mod_lt _ (by norm_num)
        set k := n % 10 with hk
        interval_cases k <;> decide

lemma natDigits_ne_nil (n : ℕ) : natDigits n ≠ [] := by
  rw [natDigits]
  split
  · simp
  · simp

lemma parseNat_natDigits (n : ℕ) : parseNat (natDigits n) = n := by
  induction n using Nat.strong_induction_on with
  | _ n ih =>
    rw [natDigits]
    split
    · next h =>
      show parseNat [digitChar n] = n
      unfold parseNat
      simp [List.foldl_cons, digitVal_digitChar n h]
    · next h =>
      rw [parseNat_append_digit,
        ih (n / 10) (Nat.div_lt_self (by omega) (by norm_num)),
        digitVal_digitChar (n % 10) (Nat.mod_lt _ (by norm_num))]
      omega

lemma natDigits_head_ne_minus (n : ℕ) : (natDigits n).head? ≠ some '-' := by
  intro hc
  rcases hh : natDigits n with _ | ⟨c, t⟩
  · exact natDigits_ne_nil n hh
  · rw [hh] at hc
    have hm : c ∈ natDigits n := by rw [hh]; exact List.mem_cons_self _ _
    have := natDigits_mem n c hm
    rw [List.head?_cons, Option.some.injEq] at hc
    subst hc
    simp at this

lemma parseInt_intChars (n : ℤ) : parseInt (intChars n) = n := by
  unfold intChars
  split
  · next h =>
    unfold parseInt
    rw [if_pos (by rw [List.head?_cons])]
    show -((parseNat (natDigits (-n).toNat) : ℕ) : ℤ) = n
    rw [parseNat_natDigits, Int.toNat_of_nonneg (by omega)]
    omega
  · next h =>
    unfold parseInt
    rw [if_neg (natDigits_head_ne_minus n.toNat), parseNat_natDigits,
      Int.toNat_of_nonneg (by omega)]

/-! ## Event type mapping (CalendarSyncService.mapEventType) -/

/-- String.prototype.toLowerCase on the ASCII labels involved. -/
def lowerStr (s : String) : String := ⟨s.data.map Char.toLower⟩

/-- Prefix test on char lists, the building block of the includes test. -/
def isPrefixOfChars : List Char → List Char → Bool
  | [], _ => true
  | _ :: _, [] => false
  | a :: l1, b :: l2 => a == b && isPrefixOfChars l1 l2

/-- Substring occurrence test on char lists. -/
def isSubChars (needle : List Char) : List Char → Bool
  | [] => needle.isEmpty
  | b :: hay => isPrefixOfChars needle (b :: hay) || isSubChars needle hay

/-- lowerType.includes(key): substring test. -/
def strIncludes (hay needle : String) : Bool := isSubChars needle.data hay.data

/-- The ordered keyword table of mapEventType (Object.entries order). -/
def typeMap : List (String × String) :=
  [("lecture", "lecture"), ("class", "lecture"), ("exam", "exam"), ("test", "exam"),
   ("quiz", "quiz"), ("assignment", "assignment_due"), ("project", "project_due"),
   ("office hours", "office_hours"), ("meeting", "meeting"), ("conference", "conference"),
   ("holiday", "holiday"), ("break", "break"), ("deadline", "deadline"),
   ("presentation", "presentation"), ("lab", "lab"), ("seminar", "seminar"),
   ("workshop", "workshop")]

/-- mapEventType: lowercase the label, return the value of the first table
entry whose key the lowered label includes, defaulting to other. -/
def mapEventType (externalType : String) : String :=
  match typeMap.find? (fun kv => strIncludes (lowerStr externalType) kv.1) with
  | some kv => kv.2
  | none => "other"

lemma isPrefixOfChars_iff : ∀ l1 l2 : List Char, isPrefixOfChars l1 l2 = true ↔ l1 <+: l2
  | [], l2 => by simp [isPrefixOfChars]
  | a :: l1, [] => by simp [isPrefixOfChars]
  | a :: l1, b :: l2 => by
    rw [isPrefixOfChars, Bool.and_eq_true, beq_iff_eq, isPrefixOfChars_iff l1 l2,
      List.cons_prefix_cons]

lemma isSubChars_iff (n : List Char) : ∀ h : List Char, isSubChars n h = true ↔ n <:+: h
  | [] => by
    rw [isSubChars, List.isEmpty_iff, List.infix_nil]
  | b :: hay => by
    rw [isSubChars, Bool.or_eq_true, isPrefixOfChars_iff, isSubChars_iff n hay,
      List.infix_cons_iff]

/-- C5 counterexample: the lowered label team sync does not contain the
keyword meeting (or any table keyword), so mapEventType returns other, not
meeting as the claim states. -/
theorem map_event_type_team_sync_counterexample :
    mapEventType "Team Sync" = "other" ∧ mapEventType "Team Sync" ≠ "meeting" := by
  decide

lemma find?_of_decomposition (p : String × String → Bool) :
    ∀ (pre : List (String × String)) (kv : String × String) (post : List (String × String)),
      (∀ x ∈ pre, p x = false) → p kv = true →
      (pre ++ kv :: post).find? p = some kv := by
  intro pre
  induction pre with
  | nil =>
    intro kv post _ hkv
    rw [List.nil_append]
    exact List.find?_cons_of_pos post hkv
  | cons a t ih =>
    intro kv post hpre hkv
    rw [List.cons_append,
      List.find?_cons_of_neg _ (by rw [hpre a (List.mem_cons_self _ _)]; exact Bool.false_ne_true)]
    exact ih kv post (fun x hx => hpre x (List.mem_cons_of_mem a hx)) hkv

lemma strIncludes_eq_true_iff (hay needle : String) :
    strIncludes hay needle = true ↔ needle.data <:+: hay.data := by
  rw [strIncludes]
  exact isSubChars_iff needle.data hay.data

lemma strIncludes_eq_false_iff (hay needle : String) :
    strIncludes hay needle = false ↔ ¬ needle.data <:+: hay.data := by
  rw [Bool.eq_false_iff, Ne, strIncludes_eq_true_iff]

/-- C5 amended: mapEventType lowercases its label and returns the value of the
first table entry (in table order) whose key occurs as a substring of the
lowered label — whenever the table splits as pre ++ kv :: post with no key of
pre occurring and the key of kv occurring, the result is the value of kv —
and other when no key occurs; Midterm Exam Review maps to exam, Potluck to
other, Team Sync (which contains no keyword) to other, and Class Exam Review
to lecture because the key class precedes exam in the table. -/
theorem map_event_type_table (s : String) :
    (mapEventType s = "other" ∨
      ∃ kv ∈ typeMap, mapEventType s = kv.2 ∧ kv.1.data <:+: (lowerStr s).data) ∧
    ((∀ kv ∈ typeMap, ¬ kv.1.data <:+: (lowerStr s).data) → mapEventType s = "other") ∧
    (∀ (pre : List (String × String)) (kv : String × String)
        (post : List (String × String)),
      typeMap = pre ++ kv :: post →
      (∀ kv2 ∈ pre, ¬ kv2.1.data <:+: (lowerStr s).data) →
      kv.1.data <:+: (lowerStr s).data →
      mapEventType s = kv.2) ∧
    mapEventType "Midterm Exam Review" = "exam" ∧
    mapEventType "Team Sync" = "other" ∧
    mapEventType "Potluck" = "other" ∧
    mapEventType "Class Exam Review" = "lecture" := by
  refine ⟨?_, ?_, ?_, by decide, by decide, by decide, by decide⟩
  · unfold mapEventType
    rcases hfind : typeMap.find? (fun kv => strIncludes (lowerStr s) kv.1) with _ | kv
    · rw [hfind]
      exact Or.inl rfl
    · rw [hfind]
      refine Or.inr ⟨kv, List.mem_of_find?_eq_some hfind, rfl, ?_⟩
      have hp := List.find?_some hfind
      exact (isSubChars_iff kv.1.data (lowerStr s).data).mp hp
  · intro hall
    unfold mapEventType
    have hnone : typeMap.find? (fun kv => strIncludes (lowerStr s) kv.1) = none := by
      rw [List.find?_eq_none]
      intro kv hkv
      show ¬ strIncludes (lowerStr s) kv.1 = true
      rw [strIncludes, isSubChars_iff]
      exact hall kv hkv
    rw [hnone]
  · intro pre kv post htab hpre hkv
    unfold mapEventType
    rw [htab, find?_of_decomposition _ pre kv post
      (fun x hx => (strIncludes_eq_false_iff (lowerStr s) x.1).mpr (hpre x hx))
      ((strIncludes_eq_true_iff (lowerStr s) kv.1).mpr hkv)]

/-- C5 witness: the amended theorem applied to Potluck, whose lowered label
contains no table keyword, forcing the result other; and to Lab meeting,
where both the keys meeting and lab occur but meeting comes first in table
order, forcing the result meeting. -/
theorem map_event_type_table_witness :
    mapEventType "Potluck" = "other" ∧ mapEventType "Lab meeting" = "meeting" :=
  ⟨(map_event_type_table "Potluck").2.1 (by decide),
    (map_event_type_table "Lab meeting").2.2.1
      [("lecture", "lecture"), ("class", "lecture"), ("exam", "exam"), ("test", "exam"),
       ("quiz", "quiz"), ("assignment", "assignment_due"), ("project", "project_due"),
       ("office hours", "office_hours")]
      ("meeting", "meeting")
      [("conference", "conference"), ("holiday", "holiday"), ("break", "break"),
       ("deadline", "deadline"), ("presentation", "presentation"), ("lab", "lab"),
       ("seminar", "seminar"), ("workshop", "workshop")]
      (by decide) (by decide) (by decide)⟩

/-! ## Grade update by id (PUT /api/grades/:id) -/

/-- An update document for PUT /api/grades/:id: the set of leaf fields the
request names.  Modelled after the documented findOneAndUpdate semantics the
route relies on: named paths are replaced, absent paths keep their stored
value, and document pre-save middleware (Grade.preSave) does not run. -/
structure GradeUpdate where
  assignmentName : Option String := none
  assignmentType : Option String := none
  dueDate : Option (Option ℤ) := none
  maxPoints : Option ℚ := none
  weight : Option ℚ := none
  points : Option ℚ := none
  percentage : Option (Option ℚ) := none
  letterGrade : Option (Option String) := none
  submittedAt : Option (Option ℤ) := none
  isLate : Option Bool := none
  latePenalty : Option ℚ := none
  isExcused : Option Bool := none
  isExtra : Option Bool := none
deriving DecidableEq

/-- findOneAndUpdate applied to the matched grade: plain field replacement. -/
def applyUpdate (g : Grade) (u : GradeUpdate) : Grade :=
  { g with
    assignment := { g.assignment with
      name := u.assignmentName.getD g.assignment.name
      type := u.assignmentType.getD g.assignment.type
      dueDate := u.dueDate.getD g.assignment.dueDate
      maxPoints := u.maxPoints.getD g.assignment.maxPoints
      weight := u.weight.getD g.assignment.weight }
    score := { g.score with
      points := u.points.getD g.score.points
      percentage := u.percentage.getD g.score.percentage
      letterGrade := u.letterGrade.getD g.score.letterGrade }
    submissionInfo := { g.submissionInfo with
      submittedAt := u.submittedAt.getD g.submissionInfo.submittedAt
      isLate := u.isLate.getD g.submissionInfo.isLate
      latePenalty := u.latePenalty.getD g.submissionInfo.latePenalty }
    isExcused := u.isExcused.getD g.isExcused
    isExtra := u.isExtra.getD g.isExtra }

/-- A stored late grade: due at 1000, submitted at 2000, isLate recorded true,
percentage and letter grade stored. -/
def gradeStoredLate : Grade :=
  { student := 4, «class» := 1, professor := 1,
    assignment := { name := "Essay", type := "homework", dueDate := some 1000,
                    maxPoints := 20 },
    score := { points := 15, percentage := some 75, letterGrade := some "C" },
    submissionInfo := { submittedAt := some 2000, isLate := true } }

/-- C10: the update route is plain field replacement: every field the update
does not name keeps its stored value; in particular an update naming only
score.points leaves score.percentage, score.letterGrade and
submissionInfo.isLate untouched, because Grade.preSave runs on save only, not
on findOneAndUpdate (an explicit re-save would re-derive the stale isLate). -/
theorem grade_update_plain_replacement :
    (∀ (g : Grade) (u : GradeUpdate),
      (u.percentage = none → (applyUpdate g u).score.percentage = g.score.percentage) ∧
      (u.letterGrade = none → (applyUpdate g u).score.letterGrade = g.score.letterGrade) ∧
      (u.isLate = none → (applyUpdate g u).submissionInfo.isLate = g.submissionInfo.isLate) ∧
      (u.maxPoints = none → (applyUpdate g u).assignment.maxPoints = g.assignment.maxPoints) ∧
      (u.submittedAt = none →
        (applyUpdate g u).submissionInfo.submittedAt = g.submissionInfo.submittedAt)) ∧
    (∀ (g : Grade) (p : ℚ),
      (applyUpdate g { points := some p }).score.points = p ∧
      (applyUpdate g { points := some p }).score.percentage = g.score.percentage ∧
      (applyUpdate g { points := some p }).score.letterGrade = g.score.letterGrade ∧
      (applyUpdate g { points := some p }).submissionInfo.isLate =
        g.submissionInfo.isLate) ∧
    ((applyUpdate gradeStoredLate { submittedAt := some (some 500) }).submissionInfo.isLate
        = true ∧
      (Grade.preSave (applyUpdate gradeStoredLate { submittedAt := some (some 500)
        })).submissionInfo.isLate = false) := by
  refine ⟨?_, ?_, ?_, ?_⟩
  · intro g u
    refine ⟨?_, ?_, ?_, ?_, ?_⟩ <;> (intro h; simp [applyUpdate, h])
  · intro g p
    refine ⟨?_, ?_, ?_, ?_⟩ <;> simp [applyUpdate]
  · rfl
  · decide

/-- C10 witness: updating only score.points on the stored late grade keeps
its percentage, letter grade and late flag. -/
theorem grade_update_plain_replacement_witness :
    (applyUpdate gradeStoredLate { points := some 18 }).score.points = 18 ∧
    (applyUpdate gradeStoredLate { points := some 18 }).score.percentage = some 75 ∧
    (applyUpdate gradeStoredLate { points := some 18 }).score.letterGrade = some "C" ∧
    (applyUpdate gradeStoredLate { points := some 18 }).submissionInfo.isLate = true ∧
    (applyUpdate gradeStoredLate { percentage := some none }).score.letterGrade
      = some "C" := by
  obtain ⟨h1, h2, h3, h4⟩ := grade_update_plain_replacement.2.1 gradeStoredLate 18
  refine ⟨h1, h2.trans rfl, h3.trans rfl, h4.trans rfl, ?_⟩
  exact ((grade_update_plain_replacement.1 gradeStoredLate
    { percentage := some none }).2.1 rfl).trans rfl

/-! ## iCalendar interchange (CalendarSyncService.generateICalendar and
parseICalendar)

The repo delegates serialization to the ical-generator package and parsing to
the node-ical package; neither is part of this repository.  The wire format
below is modelled from the spec: one VCALENDAR of VEVENT blocks, each with
DTSTART/DTEND, SUMMARY, DESCRIPTION, LOCATION, UID, STATUS=CONFIRMED,
CATEGORIES and ORGANIZER (name + email), one field per line; the import
extracts only VEVENT components and ignores everything else.  The field
mapping on both sides (generateICalendar and parseICalendar, including
mapEventType) follows the repository source. -/

/-- Professor metadata passed to generateICalendar. -/
structure Professor where
  firstName : String
  lastName : String
  email : String
deriving DecidableEq

/-- An event as parseICalendar returns it. -/
structure ParsedEvent where
  title : String
  description : String
  startDateTime : ℤ
  endDateTime : ℤ
  location : String
  eventType : String
  isRecurring : Bool
  externalId : String
deriving DecidableEq

/-- The VEVENT block of one event: field mapping of calendar.createEvent. -/
def eventLines (prof : Professor) (e : CalendarEvent) : List (List Char) :=
  [ "BEGIN:VEVENT".data,
    "UID:".data ++ natDigits e.id,
    "SUMMARY:".data ++ e.title.data,
    "DESCRIPTION:".data ++ e.description.data,
    "LOCATION:".data ++ e.location.data,
    "DTSTART:".data ++ intChars e.startDateTime,
    "DTEND:".data ++ intChars e.endDateTime,
    "STATUS:CONFIRMED".data,
    "CATEGORIES:".data ++ e.eventType.data,
    "ORGANIZER:".data ++ prof.firstName.data ++ [' '] ++ prof.lastName.data
      ++ [' '] ++ prof.email.data,
    "END:VEVENT".data ]

/-- The VCALENDAR header: name, prodId and timezone of the ical call. -/
def headerLines (prof : Professor) : List (List Char) :=
  [ "BEGIN:VCALENDAR".data,
    "PRODID:College Management System Class Calendar".data,
    "X-WR-CALNAME:".data ++ prof.firstName.data ++ [' '] ++ prof.lastName.data
      ++ " Class Schedule".data,
    "X-WR-TIMEZONE:America/New_York".data ]

/-- All lines of the generated calendar. -/
def calendarLines (events : List CalendarEvent) (prof : Professor) : List (List Char) :=
  headerLines prof ++ events.flatMap (eventLines prof) ++ ["END:VCALENDAR".data]

/-- generateICalendar: the calendar serialized onto newline-separated lines. -/
def toICalendar (events : List CalendarEvent) (prof : Professor) : String :=
  ⟨['\x0a'].intercalate (calendarLines events prof)⟩

/-- The fields gathered while scanning one VEVENT block. -/
structure VEventDraft where
  summary : List Char := []
  description : List Char := []
  dtstart : List Char := []
  dtend : List Char := []
  location : List Char := []
  categories : List Char := []
  uid : List Char := []
  rrule : Bool := false
deriving DecidableEq

/-- Split a content line at its first colon into key and value. -/
def splitColon : List Char → Option (List Char × List Char)
  | [] => none
  | c :: cs =>
      if c = ':' then some ([], cs)
      else
        match splitColon cs with
        | some (k, v) => some (c :: k, v)
        | none => none

/-- Store a recognized key of a VEVENT block into the draft. -/
def updateDraft (d : VEventDraft) (k v : List Char) : VEventDraft :=
  if k = "SUMMARY".data then { d with summary := v }
  else if k = "DESCRIPTION".data then { d with description := v }
  else if k = "DTSTART".data then { d with dtstart := v }
  else if k = "DTEND".data then { d with dtend := v }
  else if k = "LOCATION".data then { d with location := v }
  else if k = "CATEGORIES".data then { d with categories := v }
  else if k = "UID".data then { d with uid := v }
  else if k = "RRULE".data then { d with rrule := true }
  else d

/-- The event parseICalendar pushes for one finished VEVENT block:
title = summary, start/end parsed, eventType mapped from the first category
(or the literal other when none), isRecurring from rrule, externalId = uid. -/
def finishDraft (d : VEventDraft) : ParsedEvent :=
  { title := ⟨d.summary⟩, description := ⟨d.description⟩,
    startDateTime := parseInt d.dtstart, endDateTime := parseInt d.dtend,
    location := ⟨d.location⟩,
    eventType := mapEventType (if d.categories.isEmpty then "other" else ⟨d.categories⟩),
    isRecurring := d.rrule, externalId := ⟨d.uid⟩ }

/-- One line of the scan: open a draft on BEGIN:VEVENT, emit on END:VEVENT,
record recognized fields inside a block, ignore everything else. -/
def stepLine (line : List Char) (st : Option VEventDraft) :
    List ParsedEvent × Option VEventDraft :=
  match splitColon line with
  | none => ([], st)
  | some (k, v) =>
      if k = "BEGIN".data ∧ v = "VEVENT".data then ([], some {})
      else if k = "END".data ∧ v = "VEVENT".data then
        match st with
        | some d => ([finishDraft d], none)
        | none => ([], none)
      else
        match st with
        | none => ([], none)
        | some d => ([], some (updateDraft d k v))

/-- Scan a list of lines, returning the parsed events and the final state. -/
def parseChunk : List (List Char) → Option VEventDraft →
    List ParsedEvent × Option VEventDraft
  | [], st => ([], st)
  | line :: rest, st =>
      let p := stepLine line st
      let q := parseChunk rest p.2
      (p.1 ++ q.1, q.2)

/-- parseICalendar: split the text into lines and scan the VEVENT blocks. -/
def fromICalendar (s : String) : List ParsedEvent :=
  (parseChunk (s.data.splitOn '\x0a') none).1

/-- What the import hands back for one exported event. -/
def projParsed (e : CalendarEvent) : ParsedEvent :=
  { title := e.title, description := e.description,
    startDateTime := e.startDateTime, endDateTime := e.endDateTime,
    location := e.location,
    eventType := mapEventType
      (if (e.eventType.data).isEmpty then "other" else e.eventType),
    isRecurring := false, externalId := ⟨natDigits e.id⟩ }

/-- A single-line string: no newline among its characters. -/
def strClean (s : String) : Prop := '\x0a' ∉ s.data

instance strClean_decidable (s : String) : Decidable (strClean s) :=
  inferInstanceAs (Decidable ('\x0a' ∉ s.data))

lemma parseChunk_append (l1 l2 : List (List Char)) (st : Option VEventDraft) :
    parseChunk (l1 ++ l2) st =
      ((parseChunk l1 st).1 ++ (parseChunk l2 (parseChunk l1 st).2).1,
        (parseChunk l2 (parseChunk l1 st).2).2) := by
  induction l1 generalizing st with
  | nil => simp [parseChunk]
  | cons a t ih =>
    simp only [List.cons_append, parseChunk, List.append_eq]
    rw [ih (stepLine a st).2]
    simp [List.append_assoc]

lemma parseChunk_headerLines (prof : Professor) :
    parseChunk (headerLines prof) none = ([], none) := rfl

lemma parseChunk_footer :
    parseChunk [['E', 'N', 'D', ':', 'V', 'C', 'A', 'L', 'E', 'N', 'D', 'A', 'R']] none =
      ([], none) := rfl

lemma parseChunk_eventLines (prof : Professor) (e : CalendarEvent) :
    parseChunk (eventLines prof e) none = ([projParsed e], none) := by
  have h1 := parseInt_intChars e.startDateTime
  have h2 := parseInt_intChars e.endDateTime
  unfold projParsed
  conv_rhs => rw [← h1, ← h2]
  rfl

lemma parseChunk_events (prof : Professor) (events : List CalendarEvent) :
    parseChunk (events.flatMap (eventLines prof)) none =
      (events.map projParsed, none) := by
  induction events with
  | nil => rfl
  | cons e es ih =>
    rw [List.flatMap_cons, parseChunk_append, parseChunk_eventLines prof e]
    simp [ih]

lemma newline_not_mem_natDigits (n : ℕ) : '\x0a' ∉ natDigits n := by
  intro hc
  have := natDigits_mem n _ hc
  simp at this

lemma newline_not_mem_intChars (n : ℤ) : '\x0a' ∉ intChars n := by
  unfold intChars
  split
  · intro hc
    rcases List.mem_cons.mp hc with h | h
    · exact absurd h (by decide)
    · exact newline_not_mem_natDigits _ h
  · exact newline_not_mem_natDigits _

lemma calendarLines_clean (events : List CalendarEvent) (prof : Professor)
    (hev : ∀ e ∈ events, strClean e.title ∧ strClean e.description ∧
      strClean e.location ∧ strClean e.eventType)
    (hprof : strClean prof.firstName ∧ strClean prof.lastName ∧ strClean prof.email) :
    ∀ l ∈ calendarLines events prof, '\x0a' ∉ l := by
  intro l hl
  obtain ⟨hp1, hp2, hp3⟩ := hprof
  unfold calendarLines headerLines at hl
  simp only [List.mem_append, List.mem_cons, List.mem_singleton,
    List.mem_flatMap, List.not_mem_nil, or_false] at hl
  rcases hl with ((h | h | h | h) | ⟨e, he, h⟩) | h
  · subst h; decide
  · subst h; decide
  · subst h
    simp only [List.mem_append, not_or]
    exact ⟨⟨⟨⟨by decide, hp1⟩, by decide⟩, hp2⟩, by decide⟩
  · subst h; decide
  · obtain ⟨ht, hd, hloc, hty⟩ := hev e he
    unfold eventLines at h
    simp only [List.mem_cons, List.mem_singleton, List.not_mem_nil, or_false] at h
    rcases h with h | h | h | h | h | h | h | h | h | h | h <;> subst h
    · decide
    · simp only [List.mem_append, not_or]
      exact ⟨by decide, newline_not_mem_natDigits _⟩
    · simp only [List.mem_append, not_or]
      exact ⟨by decide, ht⟩
    · simp only [List.mem_append, not_or]
      exact ⟨by decide, hd⟩
    · simp only [List.mem_append, not_or]
      exact ⟨by decide, hloc⟩
    · simp only [List.mem_append, not_or]
      exact ⟨by decide, newline_not_mem_intChars _⟩
    · simp only [List.mem_append, not_or]
      exact ⟨by decide, newline_not_mem_intChars _⟩
    · decide
    · simp only [List.mem_append, not_or]
      exact ⟨by decide, hty⟩
    · simp only [List.mem_append, not_or]
      exact ⟨⟨⟨⟨⟨by decide, hp1⟩, by decide⟩, hp2⟩, by decide⟩, hp3⟩
    · decide
  · subst h; decide

/-- C9: parsing the generated iCalendar text gives back one event per input
event, preserving title, startDateTime, endDateTime and location, for every
event list (in particular one of each enum eventType) and professor metadata
whose text fields are single-line. -/
theorem icalendar_round_trip (events : List CalendarEvent) (prof : Professor)
    (hev : ∀ e ∈ events, strClean e.title ∧ strClean e.description ∧
      strClean e.location ∧ strClean e.eventType)
    (hprof : strClean prof.firstName ∧ strClean prof.lastName ∧ strClean prof.email) :
    (fromICalendar (toICalendar events prof)).length = events.length ∧
    (fromICalendar (toICalendar events prof)).map
        (fun pe => (pe.title, pe.startDateTime, pe.endDateTime, pe.location)) =
      events.map (fun e => (e.title, e.startDateTime, e.endDateTime, e.location)) := by
  have hsplit : (toICalendar events prof).data.splitOn '\x0a' =
      calendarLines events prof := by
    show (['\x0a'].intercalate (calendarLines events prof)).splitOn '\x0a' = _
    refine List.splitOn_intercalate (calendarLines events prof) '\x0a'
      (calendarLines_clean events prof hev hprof) ?_
    simp [calendarLines, headerLines]
  have hparsed : fromICalendar (toICalendar events prof) = events.map projParsed := by
    unfold fromICalendar
    rw [hsplit]
    unfold calendarLines
    simp only [parseChunk_append, parseChunk_headerLines, parseChunk_events,
      parseChunk_footer, List.nil_append, List.append_nil]
  rw [hparsed]
  constructor
  · simp
  · rw [List.map_map]
    refine List.map_congr_left ?_
    intro e _
    simp [projParsed]

/-- One event of each enum eventType, single-line fields throughout. -/
def roundTripEvents : List CalendarEvent :=
  eventTypeEnum.map (fun t =>
    { title := "Session " ++ t, description := "weekly", professor := 1,
      eventType := t, startDateTime := 1741616520000,
      endDateTime := 1741622400000, location := "Hall A", id := 5 })

/-- The professor metadata of the round-trip example. -/
def profExample : Professor :=
  { firstName := "Ada", lastName := "Lovelace", email := "ada@example.edu" }

/-- C9 witness: the round trip applied to the 16-event list, one per enum
eventType, with concrete professor metadata. -/
theorem icalendar_round_trip_witness :
    (fromICalendar (toICalendar roundTripEvents profExample)).length = 16 ∧
    (fromICalendar (toICalendar roundTripEvents profExample)).map
        (fun pe => (pe.title, pe.startDateTime, pe.endDateTime, pe.location)) =
      roundTripEvents.map (fun e =>
        (e.title, e.startDateTime, e.endDateTime, e.location)) := by
  obtain ⟨h1, h2⟩ := icalendar_round_trip roundTripEvents profExample
    (by decide) (by decide)
  exact ⟨h1.trans (by decide), h2⟩

end CPMS
